import Mathlib

/-!
Formal model of the dimensional-analysis server in
`src/hello_server/server.py`.

The server's core is three pure computations, which we embed shallowly:

* `build_context` — the symbol table: a fixed catalog of unit-tagged
  placeholder quantities merged with custom variables parsed from a
  comma-separated `name=expr` configuration string;
* `check_equation_sanity` — split an equation string on `=`, evaluate both
  sides against the symbol table, and compare the physical dimensions of the
  two resulting quantities;
* the configuration-string merge computed by the `add_custom_variable` tool.

Python strings are modelled as `List Char`.  The external unit-algebra
library (pint) is modelled by a sub-registry containing exactly the units the
catalog and the configuration strings of this development use: a unit is an
exponent vector over those unit names, its dimension the induced vector of
SI base-quantity exponents, and its scale the induced rational factor
relative to base units.  Python's `eval` over the restricted symbol-table
namespace is modelled by a tokenizer, a recursive-descent parser and an
evaluator for the arithmetic fragment the symbol table supports
(numeric literals, names, `+ - * / **`, unary signs, parentheses); any
input outside that fragment evaluates to an error, which the checker
catches exactly as the source's blanket `except` does.  Python floats are
modelled as exact rationals; magnitudes never influence the dimension
comparison.  Every failure is a value of `EvalErr`; raising is modelled by
`Except.error`, and the outer handler of `check_equation_sanity` converts it
to the structured non-consistent result, so the embedding is total exactly
where the source never lets an exception escape.
-/

/-- Python strings, modelled as lists of characters. -/
abbrev PyStr := List Char

/-- Whitespace characters removed by Python's `str.strip`. -/
def pyWS (c : Char) : Bool :=
  c = ' ' || c = '\t' || c = '\n' || c = '\r' || c = '\x0b' || c = '\x0c'

/-- Remove leading whitespace: the left half of `str.strip`. -/
def lstrip : PyStr → PyStr
  | [] => []
  | c :: r => if pyWS c then lstrip r else c :: r

/-- Remove trailing whitespace: the right half of `str.strip`. -/
def rstrip : PyStr → PyStr
  | [] => []
  | c :: r => if pyWS c = true ∧ rstrip r = [] then [] else c :: rstrip r

/-- Python's `str.strip`: remove whitespace at both ends. -/
def strip (s : PyStr) : PyStr := rstrip (lstrip s)

/-- Python's `str.split(sep)` for a one-character separator: splits at every
occurrence, keeping empty parts; the empty string yields one empty part. -/
def pySplit (sep : Char) : PyStr → List PyStr
  | [] => [[]]
  | c :: r =>
    match pySplit sep r with
    | [] => [[]]
    | s :: ss => if c = sep then [] :: s :: ss else (c :: s) :: ss

/-- Python's `str.split(sep, 1)` when the separator occurs: the part before
the first occurrence and the part after it. -/
def splitFirst (sep : Char) : PyStr → PyStr × PyStr
  | [] => ([], [])
  | c :: r =>
    if c = sep then ([], r)
    else
      let p := splitFirst sep r
      (c :: p.1, p.2)

/-- Python's `",".join`. -/
def joinCommaTerms : List PyStr → PyStr
  | [] => []
  | [t] => t
  | t :: ts => t ++ ',' :: joinCommaTerms ts

/-- The decimal digit character for `d < 10`. -/
def digitChar (d : Nat) : Char := Char.ofNat (48 + d)

/-- Fuelled accumulator loop producing decimal digits most significant first. -/
def natStrAux : Nat → Nat → PyStr → PyStr
  | 0, _, acc => acc
  | fuel + 1, n, acc =>
    if n < 10 then digitChar n :: acc
    else natStrAux fuel (n / 10) (digitChar (n % 10) :: acc)

/-- Decimal rendering of a natural number. -/
def natStr (n : Nat) : PyStr := natStrAux (n + 1) n []

/-- Magnitudes: Python numbers modelled as unnormalised integer fractions
(`num/den`, with `den ≠ 0` along every reachable path).  The checker never
compares magnitudes, so representatives need not be normalised; all
operations are plain integer computations. -/
structure Frac where
  num : Int
  den : Int
deriving DecidableEq

/-- The fraction denoting an integer. -/
def Frac.ofInt (n : Int) : Frac := ⟨n, 1⟩

/-- Value test: the fraction denotes 0 (given a nonzero denominator). -/
def Frac.isZero (a : Frac) : Bool := a.num = 0

/-- Value test: the fraction denotes 1 (given a nonzero denominator). -/
def Frac.isOne (a : Frac) : Bool := a.num = a.den

/-- Sum of fractions. -/
def Frac.add (a b : Frac) : Frac :=
  ⟨a.num * b.den + b.num * a.den, a.den * b.den⟩

/-- Difference of fractions. -/
def Frac.sub (a b : Frac) : Frac :=
  ⟨a.num * b.den - b.num * a.den, a.den * b.den⟩

/-- Product of fractions. -/
def Frac.mul (a b : Frac) : Frac := ⟨a.num * b.num, a.den * b.den⟩

/-- Quotient of fractions (guarded by a zero test at every use). -/
def Frac.div (a b : Frac) : Frac := ⟨a.num * b.den, a.den * b.num⟩

/-- Negation of a fraction. -/
def Frac.neg (a : Frac) : Frac := ⟨- a.num, a.den⟩

/-- Reciprocal of a fraction (guarded by a zero test at every use). -/
def Frac.inv (a : Frac) : Frac := ⟨a.den, a.num⟩

/-- Natural power of a fraction. -/
def Frac.npow (a : Frac) : Nat → Frac
  | 0 => ⟨1, 1⟩
  | n + 1 => Frac.mul a (Frac.npow a n)

/-- Integer power of a fraction. -/
def Frac.zpow (a : Frac) (k : Int) : Frac :=
  match k with
  | .ofNat m => Frac.npow a m
  | .negSucc m => Frac.inv (Frac.npow a (m + 1))

/-- Value test: the fraction denotes an integer (Python int, or a float
with integral value — `2.0 ** 2` is as valid an exponent as `2 ** 2`). -/
def Frac.isInt (a : Frac) : Bool := a.num % a.den = 0

/-- The denoted integer, when `Frac.isInt`. -/
def Frac.toInt (a : Frac) : Int := a.num / a.den

/-- The unit names of the model's registry: the sub-registry of pint's
default registry that the server's catalog and this development use.
pint's `mol` is an alias of `mole`, handled in `unitNameOf`. -/
inductive UnitName
  | ampere | coulomb | farad | henry | hertz | joule | kelvin | kilogram
  | kilometer | meter | mole | newton | ohm | pascal | radian | second
  | tesla | volt | watt | weber
deriving DecidableEq, Fintype

/-- A physical dimension: the exponents of the seven SI base quantities. -/
structure Dim where
  length : Int
  mass : Int
  time : Int
  current : Int
  temperature : Int
  substance : Int
  luminosity : Int
deriving DecidableEq

/-- The dimension with all exponents zero (dimensionless). -/
def dimZero : Dim := ⟨0, 0, 0, 0, 0, 0, 0⟩

/-- Componentwise sum of dimensions. -/
def dimAdd (a b : Dim) : Dim :=
  ⟨a.length + b.length, a.mass + b.mass, a.time + b.time, a.current + b.current,
   a.temperature + b.temperature, a.substance + b.substance,
   a.luminosity + b.luminosity⟩

/-- Integer multiple of a dimension. -/
def dimSmul (k : Int) (a : Dim) : Dim :=
  ⟨k * a.length, k * a.mass, k * a.time, k * a.current, k * a.temperature,
   k * a.substance, k * a.luminosity⟩

/-- Base-quantity exponents of each unit, as in pint's default registry
(the fields are length, mass, time, current, temperature, substance,
luminosity; `radian` is dimensionless there). -/
def unitDim : UnitName → Dim
  | .ampere => ⟨0, 0, 0, 1, 0, 0, 0⟩
  | .coulomb => ⟨0, 0, 1, 1, 0, 0, 0⟩
  | .farad => ⟨-2, -1, 4, 2, 0, 0, 0⟩
  | .henry => ⟨2, 1, -2, -2, 0, 0, 0⟩
  | .hertz => ⟨0, 0, -1, 0, 0, 0, 0⟩
  | .joule => ⟨2, 1, -2, 0, 0, 0, 0⟩
  | .kelvin => ⟨0, 0, 0, 0, 1, 0, 0⟩
  | .kilogram => ⟨0, 1, 0, 0, 0, 0, 0⟩
  | .kilometer => ⟨1, 0, 0, 0, 0, 0, 0⟩
  | .meter => ⟨1, 0, 0, 0, 0, 0, 0⟩
  | .mole => ⟨0, 0, 0, 0, 0, 1, 0⟩
  | .newton => ⟨1, 1, -2, 0, 0, 0, 0⟩
  | .ohm => ⟨2, 1, -3, -2, 0, 0, 0⟩
  | .pascal => ⟨-1, 1, -2, 0, 0, 0, 0⟩
  | .radian => ⟨0, 0, 0, 0, 0, 0, 0⟩
  | .second => ⟨0, 0, 1, 0, 0, 0, 0⟩
  | .tesla => ⟨0, 1, -2, -1, 0, 0, 0⟩
  | .volt => ⟨2, 1, -3, -1, 0, 0, 0⟩
  | .watt => ⟨2, 1, -3, 0, 0, 0, 0⟩
  | .weber => ⟨2, 1, -2, -1, 0, 0, 0⟩

/-- Scale of each unit relative to SI base units (only `kilometer` differs
from 1 among the modelled units). -/
def unitScale : UnitName → Frac
  | .kilometer => ⟨1000, 1⟩
  | _ => ⟨1, 1⟩

/-- The registry's unit names in the fixed (alphabetical) rendering order. -/
def allUnitNames : List UnitName :=
  [.ampere, .coulomb, .farad, .henry, .hertz, .joule, .kelvin, .kilogram,
   .kilometer, .meter, .mole, .newton, .ohm, .pascal, .radian, .second,
   .tesla, .volt, .watt, .weber]

/-- A compound unit, as in pint's `UnitsContainer`: the vector of exponents
of the registry's unit names, in the order of `allUnitNames` (every
constructed vector has length 20). -/
abbrev UnitsV := List Int

/-- Position of a unit name in the exponent vector. -/
def uIdx : UnitName → Nat
  | .ampere => 0
  | .coulomb => 1
  | .farad => 2
  | .henry => 3
  | .hertz => 4
  | .joule => 5
  | .kelvin => 6
  | .kilogram => 7
  | .kilometer => 8
  | .meter => 9
  | .mole => 10
  | .newton => 11
  | .ohm => 12
  | .pascal => 13
  | .radian => 14
  | .second => 15
  | .tesla => 16
  | .volt => 17
  | .watt => 18
  | .weber => 19

/-- The empty (dimensionless) compound unit. -/
def uZero : UnitsV := List.replicate 20 0

/-- The compound unit consisting of a single named unit. -/
def uOf (n : UnitName) : UnitsV := uZero.set (uIdx n) 1

/-- The exponent of a named unit in a compound unit. -/
def uget (u : UnitsV) (n : UnitName) : Int := u.getD (uIdx n) 0

/-- Product of compound units: exponents add. -/
def umul (a b : UnitsV) : UnitsV := List.zipWith (· + ·) a b

/-- Inverse of a compound unit: exponents negate. -/
def uinv (a : UnitsV) : UnitsV := a.map fun e => - e

/-- Integer power of a compound unit: exponents scale. -/
def upow (a : UnitsV) (k : Int) : UnitsV := a.map fun e => e * k

/-- The dimension of a compound unit: the exponent-weighted sum of its
units' base dimensions (pint's `dimensionality`). -/
def dimOfUnits (u : UnitsV) : Dim :=
  (allUnitNames.map fun n => dimSmul (uget u n) (unitDim n)).foldl dimAdd dimZero

/-- Scale factor of a compound unit relative to base units. -/
def uscale (u : UnitsV) : Frac :=
  (allUnitNames.map fun n => Frac.zpow (unitScale n) (uget u n)).foldl Frac.mul ⟨1, 1⟩

/-- Rendering of a unit name, as pint prints it. -/
def unitNameString : UnitName → PyStr
  | .ampere => "ampere".toList
  | .coulomb => "coulomb".toList
  | .farad => "farad".toList
  | .henry => "henry".toList
  | .hertz => "hertz".toList
  | .joule => "joule".toList
  | .kelvin => "kelvin".toList
  | .kilogram => "kilogram".toList
  | .kilometer => "kilometer".toList
  | .meter => "meter".toList
  | .mole => "mole".toList
  | .newton => "newton".toList
  | .ohm => "ohm".toList
  | .pascal => "pascal".toList
  | .radian => "radian".toList
  | .second => "second".toList
  | .tesla => "tesla".toList
  | .volt => "volt".toList
  | .watt => "watt".toList
  | .weber => "weber".toList

/-- One factor of a unit string: the name, with its exponent when not 1. -/
def expFactor (n : UnitName) (e : Int) : PyStr :=
  if e = 1 then unitNameString n
  else unitNameString n ++ " ** ".toList ++ natStr e.natAbs

/-- Join factors of the numerator with the `*` separator. -/
def joinStarTerms : List PyStr → PyStr
  | [] => []
  | [t] => t
  | t :: ts => t ++ " * ".toList ++ joinStarTerms ts

/-- The canonical string of a compound unit, mirroring `str(q.units)` of
pint: numerator factors joined by `*`, denominator factors each after `/`,
`dimensionless` when empty.  The rendering is a fixed deterministic function
of the exponent vector, hence canonical per dimension-carrying unit. -/
def unitsStr (u : UnitsV) : PyStr :=
  let pos := allUnitNames.filter fun n => 0 < uget u n
  let neg := allUnitNames.filter fun n => uget u n < 0
  if pos = [] ∧ neg = [] then "dimensionless".toList
  else
    (if pos = [] then "1".toList
     else joinStarTerms (pos.map fun n => expFactor n (uget u n))) ++
      (neg.map fun n => " / ".toList ++ expFactor n (- uget u n)).foldr (· ++ ·) []

/-- A pint quantity: a magnitude tagged with a compound unit. -/
structure Quantity where
  mag : Frac
  units : UnitsV
deriving DecidableEq

/-- A Python value arising in this fragment: a bare number (int/float) or a
unit-tagged quantity. -/
inductive Value
  | num (q : Frac)
  | qty (q : Quantity)
deriving DecidableEq

/-- The failure modes of the embedded computations; each models the Python
exception the source would raise at the same place. -/
inductive EvalErr
  | unpackErr (got : Nat)
  | nameErr (n : PyStr)
  | syntaxErr
  | attrErr
  | dimErr (u1 u2 : UnitsV)
  | zeroDivErr
  | scaleErr
  | powErr
deriving DecidableEq

/-- The error text, mirroring the Python exception messages (the
AttributeError and non-integer-power texts are abbreviated model texts). -/
def renderErr : EvalErr → PyStr
  | .unpackErr got =>
    if got < 2 then
      "not enough values to unpack (expected 2, got ".toList ++ natStr got
        ++ ")".toList
    else "too many values to unpack (expected 2)".toList
  | .nameErr n => "name '".toList ++ n ++ "' is not defined".toList
  | .syntaxErr => "invalid syntax".toList
  | .attrErr => "object has no attribute 'units'".toList
  | .dimErr u1 u2 =>
    "Cannot convert from ".toList ++ unitsStr u1 ++ " to ".toList ++ unitsStr u2
  | .zeroDivErr => "division by zero".toList
  | .scaleErr => "Unit expression cannot have a scaling factor.".toList
  | .powErr => "unsupported exponent".toList

/-- Addition of quantities: defined exactly when the dimensions agree; the
right magnitude is converted into the left operand's unit scale. -/
def qtyAdd (a b : Quantity) : Except EvalErr Quantity :=
  if dimOfUnits a.units = dimOfUnits b.units then
    .ok ⟨Frac.add a.mag (Frac.mul b.mag (Frac.div (uscale b.units) (uscale a.units))),
      a.units⟩
  else .error (.dimErr a.units b.units)

/-- Subtraction of quantities, analogous to `qtyAdd`. -/
def qtySub (a b : Quantity) : Except EvalErr Quantity :=
  if dimOfUnits a.units = dimOfUnits b.units then
    .ok ⟨Frac.sub a.mag (Frac.mul b.mag (Frac.div (uscale b.units) (uscale a.units))),
      a.units⟩
  else .error (.dimErr a.units b.units)

/-- `+` on values: bare numbers add; a number mixed with a quantity is
promoted to a dimensionless quantity, as pint wraps scalars. -/
def addVal : Value → Value → Except EvalErr Value
  | .num a, .num b => .ok (.num (Frac.add a b))
  | .num a, .qty b => (qtyAdd ⟨a, uZero⟩ b).map .qty
  | .qty a, .num b => (qtyAdd a ⟨b, uZero⟩).map .qty
  | .qty a, .qty b => (qtyAdd a b).map .qty

/-- `-` on values, analogous to `addVal`. -/
def subVal : Value → Value → Except EvalErr Value
  | .num a, .num b => .ok (.num (Frac.sub a b))
  | .num a, .qty b => (qtySub ⟨a, uZero⟩ b).map .qty
  | .qty a, .num b => (qtySub a ⟨b, uZero⟩).map .qty
  | .qty a, .qty b => (qtySub a b).map .qty

/-- `*` on values: magnitudes multiply, unit exponents add. -/
def mulVal : Value → Value → Value
  | .num a, .num b => .num (Frac.mul a b)
  | .num a, .qty b => .qty ⟨Frac.mul a b.mag, b.units⟩
  | .qty a, .num b => .qty ⟨Frac.mul a.mag b, a.units⟩
  | .qty a, .qty b => .qty ⟨Frac.mul a.mag b.mag, umul a.units b.units⟩

/-- `/` on values: division by a zero magnitude raises, as in Python. -/
def divVal : Value → Value → Except EvalErr Value
  | .num a, .num b =>
    if b.isZero then .error .zeroDivErr else .ok (.num (Frac.div a b))
  | .num a, .qty b =>
    if b.mag.isZero then .error .zeroDivErr
    else .ok (.qty ⟨Frac.div a b.mag, uinv b.units⟩)
  | .qty a, .num b =>
    if b.isZero then .error .zeroDivErr else .ok (.qty ⟨Frac.div a.mag b, a.units⟩)
  | .qty a, .qty b =>
    if b.mag.isZero then .error .zeroDivErr
    else .ok (.qty ⟨Frac.div a.mag b.mag, umul a.units (uinv b.units)⟩)

/-- The numeric value of an exponent: a bare number, or a dimensionless
quantity reduced to base scale (pint requires dimensionless exponents). -/
def expNum : Value → Except EvalErr Frac
  | .num b => .ok b
  | .qty e =>
    if dimOfUnits e.units = dimZero then .ok (Frac.mul e.mag (uscale e.units))
    else .error (.dimErr e.units uZero)

/-- Integer power of a rational magnitude; a negative power of zero raises. -/
def qpowChecked (a : Frac) (k : Int) : Except EvalErr Frac :=
  if a.isZero = true ∧ k < 0 then .error .zeroDivErr else .ok (Frac.zpow a k)

/-- `**` on values.  The model covers integer exponents — the only ones the
catalog and the claims use; a fractional exponent (an irrational float in
Python) is outside the rational model and errors. -/
def powVal (a b : Value) : Except EvalErr Value :=
  match expNum b with
  | .error e => .error e
  | .ok q =>
    if q.isInt then
      match a with
      | .num x => (qpowChecked x q.toInt).map .num
      | .qty x =>
        (qpowChecked x.mag q.toInt).map fun m => .qty ⟨m, upow x.units q.toInt⟩
    else .error .powErr

/-- Unary minus on values. -/
def negVal : Value → Value
  | .num a => .num (Frac.neg a)
  | .qty a => .qty ⟨Frac.neg a.mag, a.units⟩

/-- Tokens of the arithmetic fragment. -/
inductive Tok
  | num (q : Frac)
  | ident (s : PyStr)
  | plus | minus | star | slash | dstar | lparen | rparen
deriving DecidableEq

/-- Decimal digit predicate. -/
def isDigitCh (c : Char) : Bool := '0' ≤ c && c ≤ '9'

/-- ASCII letter predicate. -/
def isAlphaCh (c : Char) : Bool := ('a' ≤ c && c ≤ 'z') || ('A' ≤ c && c ≤ 'Z')

/-- First character of an identifier. -/
def isIdentStart (c : Char) : Bool := isAlphaCh c || c = '_'

/-- Subsequent character of an identifier. -/
def isIdentCh (c : Char) : Bool := isIdentStart c || isDigitCh c

/-- Numeric value of a digit character. -/
def digitVal (c : Char) : Nat := c.toNat - 48

/-- The natural number denoted by a digit list, most significant first. -/
def natOfDigits (l : PyStr) : Nat := l.foldl (fun a c => 10 * a + digitVal c) 0

/-- Read a numeric literal (digits with an optional point, as `9.81`) from
the front of the input. -/
def readNumber (s : PyStr) : Except EvalErr (Frac × PyStr) :=
  let ds := s.takeWhile isDigitCh
  let r1 := s.dropWhile isDigitCh
  match r1 with
  | '.' :: r2 =>
    let fs := r2.takeWhile isDigitCh
    let r3 := r2.dropWhile isDigitCh
    if ds = [] ∧ fs = [] then .error .syntaxErr
    else
      .ok (⟨Int.ofNat (natOfDigits ds * 10 ^ fs.length + natOfDigits fs),
            Int.ofNat (10 ^ fs.length)⟩, r3)
  | _ =>
    if ds = [] then .error .syntaxErr
    else .ok (Frac.ofInt (Int.ofNat (natOfDigits ds)), r1)

/-- Tokenizer for the arithmetic fragment; any character outside it is a
syntax error.  The fuel only bounds recursion; `s.length + 1` always
suffices since every step consumes at least one character. -/
def tokenize : Nat → PyStr → Except EvalErr (List Tok)
  | 0, _ => .error .syntaxErr
  | _ + 1, [] => .ok []
  | fuel + 1, c :: rest =>
    if pyWS c then tokenize fuel rest
    else if c = '(' then (tokenize fuel rest).map (Tok.lparen :: ·)
    else if c = ')' then (tokenize fuel rest).map (Tok.rparen :: ·)
    else if c = '+' then (tokenize fuel rest).map (Tok.plus :: ·)
    else if c = '-' then (tokenize fuel rest).map (Tok.minus :: ·)
    else if c = '*' then
      match rest with
      | '*' :: r2 => (tokenize fuel r2).map (Tok.dstar :: ·)
      | _ => (tokenize fuel rest).map (Tok.star :: ·)
    else if c = '/' then (tokenize fuel rest).map (Tok.slash :: ·)
    else if isDigitCh c || c = '.' then
      match readNumber (c :: rest) with
      | .error e => .error e
      | .ok (q, r2) => (tokenize fuel r2).map (Tok.num q :: ·)
    else if isIdentStart c then
      (tokenize fuel (rest.dropWhile isIdentCh)).map
        (Tok.ident (c :: rest.takeWhile isIdentCh) :: ·)
    else .error .syntaxErr

/-- Abstract syntax of the arithmetic fragment, with Python's precedence. -/
inductive Expr
  | lit (q : Frac)
  | evar (n : PyStr)
  | eadd (a b : Expr)
  | esub (a b : Expr)
  | emul (a b : Expr)
  | ediv (a b : Expr)
  | epow (a b : Expr)
  | eneg (a : Expr)
  | epos (a : Expr)
deriving DecidableEq

mutual

/-- Additive level: terms separated by `+`/`-`, left associative. -/
def parseArith : Nat → List Tok → Except EvalErr (Expr × List Tok)
  | 0, _ => .error .syntaxErr
  | fuel + 1, ts =>
    match parseTerm fuel ts with
    | .error e => .error e
    | .ok (a, r) => parseArithRest fuel a r

/-- Loop of the additive level. -/
def parseArithRest : Nat → Expr → List Tok → Except EvalErr (Expr × List Tok)
  | 0, _, _ => .error .syntaxErr
  | fuel + 1, acc, ts =>
    match ts with
    | .plus :: r =>
      match parseTerm fuel r with
      | .error e => .error e
      | .ok (b, r2) => parseArithRest fuel (.eadd acc b) r2
    | .minus :: r =>
      match parseTerm fuel r with
      | .error e => .error e
      | .ok (b, r2) => parseArithRest fuel (.esub acc b) r2
    | _ => .ok (acc, ts)

/-- Multiplicative level: unary factors separated by `*`/`/`. -/
def parseTerm : Nat → List Tok → Except EvalErr (Expr × List Tok)
  | 0, _ => .error .syntaxErr
  | fuel + 1, ts =>
    match parseUnary fuel ts with
    | .error e => .error e
    | .ok (a, r) => parseTermRest fuel a r

/-- Loop of the multiplicative level. -/
def parseTermRest : Nat → Expr → List Tok → Except EvalErr (Expr × List Tok)
  | 0, _, _ => .error .syntaxErr
  | fuel + 1, acc, ts =>
    match ts with
    | .star :: r =>
      match parseUnary fuel r with
      | .error e => .error e
      | .ok (b, r2) => parseTermRest fuel (.emul acc b) r2
    | .slash :: r =>
      match parseUnary fuel r with
      | .error e => .error e
      | .ok (b, r2) => parseTermRest fuel (.ediv acc b) r2
    | _ => .ok (acc, ts)

/-- Unary level: Python's `u_expr`, so `-2**2` parses as `-(2**2)`. -/
def parseUnary : Nat → List Tok → Except EvalErr (Expr × List Tok)
  | 0, _ => .error .syntaxErr
  | fuel + 1, ts =>
    match ts with
    | .plus :: r => (parseUnary fuel r).map fun p => (.epos p.1, p.2)
    | .minus :: r => (parseUnary fuel r).map fun p => (.eneg p.1, p.2)
    | _ => parsePower fuel ts

/-- Power level: an atom with an optional right-associative `**` whose
exponent is again a unary expression, as in Python. -/
def parsePower : Nat → List Tok → Except EvalErr (Expr × List Tok)
  | 0, _ => .error .syntaxErr
  | fuel + 1, ts =>
    match parseAtom fuel ts with
    | .error e => .error e
    | .ok (b, r) =>
      match r with
      | .dstar :: r2 => (parseUnary fuel r2).map fun p => (.epow b p.1, p.2)
      | _ => .ok (b, r)

/-- Atoms: literals, names, parenthesised expressions. -/
def parseAtom : Nat → List Tok → Except EvalErr (Expr × List Tok)
  | 0, _ => .error .syntaxErr
  | fuel + 1, ts =>
    match ts with
    | .num q :: r => .ok (.lit q, r)
    | .ident n :: r => .ok (.evar n, r)
    | .lparen :: r =>
      match parseArith fuel r with
      | .error e => .error e
      | .ok (e, .rparen :: r2) => .ok (e, r2)
      | .ok _ => .error .syntaxErr
    | _ => .error .syntaxErr

end

/-- A name-resolution environment, as seen by the evaluator. -/
abbrev Lookup := PyStr → Option Value

/-- Evaluation of an expression against an environment; an unbound name is
Python's `NameError`. -/
def evalExpr (look : Lookup) : Expr → Except EvalErr Value
  | .lit q => .ok (.num q)
  | .evar n =>
    match look n with
    | some v => .ok v
    | none => .error (.nameErr n)
  | .eadd a b =>
    match evalExpr look a with
    | .error e => .error e
    | .ok x =>
      match evalExpr look b with
      | .error e => .error e
      | .ok y => addVal x y
  | .esub a b =>
    match evalExpr look a with
    | .error e => .error e
    | .ok x =>
      match evalExpr look b with
      | .error e => .error e
      | .ok y => subVal x y
  | .emul a b =>
    match evalExpr look a with
    | .error e => .error e
    | .ok x =>
      match evalExpr look b with
      | .error e => .error e
      | .ok y => .ok (mulVal x y)
  | .ediv a b =>
    match evalExpr look a with
    | .error e => .error e
    | .ok x =>
      match evalExpr look b with
      | .error e => .error e
      | .ok y => divVal x y
  | .epow a b =>
    match evalExpr look a with
    | .error e => .error e
    | .ok x =>
      match evalExpr look b with
      | .error e => .error e
      | .ok y => powVal x y
  | .eneg a => (evalExpr look a).map negVal
  | .epos a => evalExpr look a

/-- The model of `eval(s, {}, namespace)` on the arithmetic fragment:
tokenize, parse (requiring all input consumed), evaluate. -/
def evalStr (look : Lookup) (s : PyStr) : Except EvalErr Value :=
  match tokenize (s.length + 1) s with
  | .error e => .error e
  | .ok ts =>
    match parseArith (6 * ts.length + 6) ts with
    | .error e => .error e
    | .ok (e, []) => evalExpr look e
    | .ok _ => .error .syntaxErr

/-- Resolution of a unit name string, including pint's `mol` alias; an
unknown name is pint's `UndefinedUnitError`, surfaced as a name error. -/
def unitNameOf (s : PyStr) : Option UnitName :=
  if s = "ampere".toList then some .ampere
  else if s = "coulomb".toList then some .coulomb
  else if s = "farad".toList then some .farad
  else if s = "henry".toList then some .henry
  else if s = "hertz".toList then some .hertz
  else if s = "joule".toList then some .joule
  else if s = "kelvin".toList then some .kelvin
  else if s = "kilogram".toList then some .kilogram
  else if s = "kilometer".toList then some .kilometer
  else if s = "meter".toList then some .meter
  else if s = "mole".toList then some .mole
  else if s = "mol".toList then some .mole
  else if s = "newton".toList then some .newton
  else if s = "ohm".toList then some .ohm
  else if s = "pascal".toList then some .pascal
  else if s = "radian".toList then some .radian
  else if s = "second".toList then some .second
  else if s = "tesla".toList then some .tesla
  else if s = "volt".toList then some .volt
  else if s = "watt".toList then some .watt
  else if s = "weber".toList then some .weber
  else none

/-- The unit namespace: every registry name denotes that unit with
magnitude 1. -/
def unitLook : Lookup := fun n => (unitNameOf n).map fun u => .qty ⟨⟨1, 1⟩, uOf u⟩

/-- Model of pint's unit-string parsing (the `Q_(value, string)` path): the
string is evaluated in the unit namespace and must denote a pure unit —
a scaling factor other than 1 is pint's
`ValueError: Unit expression cannot have a scaling factor.` -/
def evalPureUnit (s : PyStr) : Except EvalErr UnitsV :=
  match evalStr unitLook s with
  | .error e => .error e
  | .ok (.num q) => if q.isOne then .ok uZero else .error .scaleErr
  | .ok (.qty q) => if q.mag.isOne then .ok q.units else .error .scaleErr

/-- The `Q_(magnitude, unit_string)` constructor as the catalog uses it.
Every catalog string parses; the error fallback is unreachable there and
only keeps the function total. -/
def Q_mk (mag : Frac) (s : String) : Quantity :=
  match evalPureUnit s.toList with
  | .ok u => ⟨mag, u⟩
  | .error _ => ⟨mag, uZero⟩

/-- The symbol table: a Python dict modelled as an insertion-ordered
association list with unique keys. -/
abbrev Ctx := List (PyStr × Value)

/-- Dict lookup: the first (unique) binding of the key. -/
def dlookup {α : Type} : List (PyStr × α) → PyStr → Option α
  | [], _ => none
  | kv :: rest, n => if kv.1 = n then some kv.2 else dlookup rest n

/-- Dict assignment `d[k] = v`: overwrite in place, else append — Python's
insertion-order semantics. -/
def dinsert {α : Type} : List (PyStr × α) → PyStr → α → List (PyStr × α)
  | [], k, v => [(k, v)]
  | kv :: rest, k, v =>
    if kv.1 = k then (kv.1, v) :: rest else kv :: dinsert rest k v

/-- Python's `base.update(upd)`: assign every binding of `upd` into `base`
in order. -/
def dictUpdate {α : Type} (base upd : List (PyStr × α)) : List (PyStr × α) :=
  upd.foldl (fun acc kv => dinsert acc kv.1 kv.2) base

/-- The fixed catalog `base_context` of `build_context`, entry for entry in
source order. -/
def baseContext : Ctx :=
  [ ("F".toList, .qty (Q_mk ⟨1, 1⟩ "newton")),
    ("m".toList, .qty (Q_mk ⟨1, 1⟩ "kilogram")),
    ("a".toList, .qty (Q_mk ⟨1, 1⟩ "meter/second**2")),
    ("v".toList, .qty (Q_mk ⟨1, 1⟩ "meter/second")),
    ("u".toList, .qty (Q_mk ⟨1, 1⟩ "meter/second")),
    ("d".toList, .qty (Q_mk ⟨1, 1⟩ "meter")),
    ("x".toList, .qty (Q_mk ⟨1, 1⟩ "meter")),
    ("t".toList, .qty (Q_mk ⟨1, 1⟩ "second")),
    ("p".toList, .qty (Q_mk ⟨1, 1⟩ "kilogram*meter/second")),
    ("E".toList, .qty (Q_mk ⟨1, 1⟩ "joule")),
    ("W".toList, .qty (Q_mk ⟨1, 1⟩ "joule")),
    ("KE".toList, .qty (Q_mk ⟨1, 1⟩ "joule")),
    ("PE".toList, .qty (Q_mk ⟨1, 1⟩ "joule")),
    ("P".toList, .qty (Q_mk ⟨1, 1⟩ "watt")),
    ("q".toList, .qty (Q_mk ⟨1, 1⟩ "coulomb")),
    ("V".toList, .qty (Q_mk ⟨1, 1⟩ "volt")),
    ("I".toList, .qty (Q_mk ⟨1, 1⟩ "ampere")),
    ("R".toList, .qty (Q_mk ⟨1, 1⟩ "ohm")),
    ("C".toList, .qty (Q_mk ⟨1, 1⟩ "farad")),
    ("L".toList, .qty (Q_mk ⟨1, 1⟩ "henry")),
    ("B".toList, .qty (Q_mk ⟨1, 1⟩ "tesla")),
    ("phi".toList, .qty (Q_mk ⟨1, 1⟩ "weber")),
    ("T".toList, .qty (Q_mk ⟨1, 1⟩ "kelvin")),
    ("k".toList, .qty (Q_mk ⟨1, 1⟩ "joule/kelvin")),
    ("R_gas".toList, .qty (Q_mk ⟨1, 1⟩ "joule/(mol*kelvin)")),
    ("n".toList, .qty (Q_mk ⟨1, 1⟩ "mole")),
    ("p_pressure".toList, .qty (Q_mk ⟨1, 1⟩ "pascal")),
    ("V_volume".toList, .qty (Q_mk ⟨1, 1⟩ "meter**3")),
    ("Q_heat".toList, .qty (Q_mk ⟨1, 1⟩ "joule")),
    ("f".toList, .qty (Q_mk ⟨1, 1⟩ "hertz")),
    ("lambda_".toList, .qty (Q_mk ⟨1, 1⟩ "meter")),
    ("c".toList, .qty (Q_mk ⟨299792458, 1⟩ "meter/second")),
    ("omega".toList, .qty (Q_mk ⟨1, 1⟩ "radian/second")),
    ("G".toList, .qty (Q_mk ⟨6674, Int.ofNat (10 ^ 14)⟩ "meter**3 / (kilogram * second**2)")),
    ("h".toList, .qty (Q_mk ⟨6626, Int.ofNat (10 ^ 37)⟩ "joule*second")),
    ("e".toList, .qty (Q_mk ⟨1602, Int.ofNat (10 ^ 22)⟩ "coulomb")) ]

/-- The empty environment: the fallback `eval(expr, {}, {"Q_": Q_, "ureg":
ureg})` exposes only the constructor and registry objects, which are not
values of the arithmetic fragment, so every name lookup there fails as the
corresponding Python evaluation of an arithmetic use of them would. -/
def emptyLook : Lookup := fun _ => none

/-- The two-step trial of `build_context` for one custom-variable
expression: first as a pure unit specifier with magnitude 1, on failure as a
full expression in the fallback namespace. -/
def resolveCustomExpr (unit_expr : PyStr) : Except EvalErr Value :=
  match evalPureUnit unit_expr with
  | .ok u => .ok (.qty ⟨⟨1, 1⟩, u⟩)
  | .error _ => evalStr emptyLook unit_expr

/-- The custom-variable loop of `build_context`: each comma-separated term
containing `=` is stripped, split at its first `=`, both parts stripped, and
the resolved value assigned into the accumulating dict; a term without `=`
is skipped; a resolution failure aborts the whole loop (the enclosing
`try`). -/
def goTerms : List PyStr → Ctx → Except EvalErr Ctx
  | [], d => .ok d
  | t :: ts, d =>
    if '=' ∈ t then
      let p := splitFirst '=' (strip t)
      match resolveCustomExpr (strip p.2) with
      | .ok v => goTerms ts (dinsert d (strip p.1) v)
      | .error e => .error e
    else goTerms ts d

/-- The custom-variable dict of a configuration string: the loop over its
comma-separated terms. -/
def buildCustomVars (s : PyStr) : Except EvalErr Ctx :=
  goTerms (pySplit ',' s) []

/-- `build_context`: the catalog, updated by the custom variables when a
configuration string is present (Python truthiness: `None` and the empty
string are skipped) and their parsing succeeds; on failure the catalog is
returned unmodified (the source logs a warning and continues). -/
def build_context (custom_variables : Option PyStr) : Ctx :=
  match custom_variables with
  | none => baseContext
  | some s =>
    if s = [] then baseContext
    else
      match buildCustomVars s with
      | .ok custom => dictUpdate baseContext custom
      | .error _ => baseContext

/-- The verbose block of a check result. -/
structure VerboseInfo where
  lhs_expression : PyStr
  rhs_expression : PyStr
  lhs_magnitude : Frac
  rhs_magnitude : Frac
deriving DecidableEq

/-- The result dict of `check_equation_sanity`. -/
structure CheckResult where
  equation : PyStr
  consistent : Bool
  lhs_units : Option PyStr
  rhs_units : Option PyStr
  message : PyStr
  verbose : Option VerboseInfo
deriving DecidableEq

/-- pint's `lhs.check(rhs)`: dimensional equality, ignoring magnitudes and
unit scales. -/
def Quantity.check (a b : Quantity) : Bool :=
  decide (dimOfUnits a.units = dimOfUnits b.units)

/-- Attribute access `.units`/`.magnitude` on a value: a bare number has
neither, which is Python's `AttributeError`. -/
def asQty : Value → Except EvalErr Quantity
  | .num _ => .error .attrErr
  | .qty q => .ok q

/-- Head of the success message of `check_equation_sanity`. -/
def successHead : PyStr :=
  "✅ Equation is dimensionally consistent: both sides are [".toList

/-- Head of the inconsistency message. -/
def failHead : PyStr := "❌ Equation is NOT consistent: LHS is [".toList

/-- Head of the caught-error message. -/
def errHead : PyStr := "❌ Error while checking equation: ".toList

/-- The success message: it quotes only the LHS unit string. -/
def successMsg (lu : PyStr) : PyStr := successHead ++ lu ++ "].".toList

/-- The inconsistency message, quoting both unit strings. -/
def failMsg (lu ru : PyStr) : PyStr :=
  failHead ++ lu ++ "] but RHS is [".toList ++ ru ++ "].".toList

/-- The body of `check_equation_sanity` inside its `try`: any `.error e`
models an exception reaching the `except` handler.  The order mirrors the
source: split, strip, evaluate LHS then RHS, read `.units` of LHS then RHS,
compare, attach the verbose block. -/
def innerCheck (equation : PyStr) (context : Ctx) (verbose : Bool) :
    Except EvalErr CheckResult :=
  match pySplit '=' equation with
  | [lhs, rhs] =>
    let lhs_expr := strip lhs
    let rhs_expr := strip rhs
    match evalStr (dlookup context) lhs_expr with
    | .error e => .error e
    | .ok lhs_val =>
      match evalStr (dlookup context) rhs_expr with
      | .error e => .error e
      | .ok rhs_val =>
        match asQty lhs_val with
        | .error e => .error e
        | .ok lq =>
          match asQty rhs_val with
          | .error e => .error e
          | .ok rq =>
            let lhs_units := unitsStr lq.units
            let rhs_units := unitsStr rq.units
            let base : CheckResult :=
              if Quantity.check lq rq then
                ⟨equation, true, some lhs_units, some rhs_units,
                  successMsg lhs_units, none⟩
              else
                ⟨equation, false, some lhs_units, some rhs_units,
                  failMsg lhs_units rhs_units, none⟩
            if verbose then
              .ok { base with verbose := some ⟨lhs_expr, rhs_expr, lq.mag, rq.mag⟩ }
            else .ok base
  | parts => .error (.unpackErr parts.length)

/-- The generic failure result produced by the `except` handler. -/
def errResult (equation : PyStr) (e : EvalErr) : CheckResult :=
  ⟨equation, false, none, none, errHead ++ renderErr e, none⟩

/-- `check_equation_sanity`: the body with its blanket exception handler.
The embedding is a total function — the model of "never raises outward". -/
def check_equation_sanity (equation : PyStr) (context : Ctx) (verbose : Bool) :
    CheckResult :=
  match innerCheck equation context verbose with
  | .ok r => r
  | .error e => errResult equation e

/-- The current-variables parsing loop of the `add_custom_variable` tool:
like the builder's loop but keeping the expressions as strings; it cannot
fail. -/
def goNames : List PyStr → List (PyStr × PyStr) → List (PyStr × PyStr)
  | [], d => d
  | t :: ts, d =>
    if '=' ∈ t then
      let p := splitFirst '=' (strip t)
      goNames ts (dinsert d (strip p.1) (strip p.2))
    else goNames ts d

/-- The `current_vars` dict of `add_custom_variable` for a session
configuration string. -/
def parseCurrentVars (cfg : Option PyStr) : List (PyStr × PyStr) :=
  match cfg with
  | none => []
  | some s => if s = [] then [] else goNames (pySplit ',' s) []

/-- The proposed configuration string computed by `add_custom_variable`:
the current dict with the new binding assigned, rejoined as
comma-separated `name=expr` terms.  The tool returns this string inside an
instruction message and mutates nothing. -/
def new_custom_vars (cfg : Option PyStr) (name unit : PyStr) : PyStr :=
  joinCommaTerms
    ((dinsert (parseCurrentVars cfg) name unit).map fun kv => kv.1 ++ '=' :: kv.2)

/-! ### Theorems -/

instance {ε α : Type} [DecidableEq ε] [DecidableEq α] : DecidableEq (Except ε α)
  | .ok a, .ok b =>
    if h : a = b then .isTrue (by rw [h]) else .isFalse (by simp [h])
  | .ok _, .error _ => .isFalse (by simp)
  | .error _, .ok _ => .isFalse (by simp)
  | .error a, .error b =>
    if h : a = b then .isTrue (by rw [h]) else .isFalse (by simp [h])

/-- C2: `check_equation_sanity` is a total function of its inputs (nothing
raises outward), and every failure of the body — no `=` separator, a split
into other than two parts, an unknown symbol, a malformed expression, or any
evaluation error `e` — yields the generic result: `consistent = false`, both
unit fields `none`, and a message embedding the underlying error text. -/
theorem c2_failures_are_caught_results
    (equation : PyStr) (ctx : Ctx) (verbose : Bool) (e : EvalErr)
    (herr : innerCheck equation ctx verbose = .error e) :
    check_equation_sanity equation ctx verbose =
      { equation := equation, consistent := false, lhs_units := none,
        rhs_units := none, message := errHead ++ renderErr e, verbose := none } := by
  unfold check_equation_sanity
  rw [herr]
  rfl

/-- Witness for C2 at the concrete separator-free equation `F + m`. -/
theorem c2_witness :
    check_equation_sanity ("F + m").toList baseContext false =
      { equation := ("F + m").toList, consistent := false, lhs_units := none,
        rhs_units := none,
        message := errHead ++ renderErr (.unpackErr 1), verbose := none } :=
  c2_failures_are_caught_results _ _ _ (.unpackErr 1) (by decide)

/-- C9: symbol-table construction and checking are deterministic — two
tables built from the same configuration string answer every equation query
identically (the embedding exhibits both as pure functions of the
configuration string). -/
theorem c9_deterministic
    (cfg : Option PyStr) (equation : PyStr) (verbose : Bool) (ctx1 ctx2 : Ctx)
    (h1 : ctx1 = build_context cfg) (h2 : ctx2 = build_context cfg) :
    check_equation_sanity equation ctx1 verbose =
      check_equation_sanity equation ctx2 verbose := by
  subst h1; subst h2; rfl

/-- Witness for C9 at a concrete configuration and equation. -/
theorem c9_witness :
    check_equation_sanity ("F = m * a").toList
        (build_context (some ("g=meter".toList))) false =
      check_equation_sanity ("F = m * a").toList
        (build_context (some ("g=meter".toList))) false :=
  c9_deterministic (some ("g=meter".toList)) _ false _ _ rfl rfl

/-- C4: a custom-variables specification containing a term whose expression
fails both resolution attempts makes `build_context` return the catalog with
no custom variable applied at all — also dropping the terms that resolved
before the failing one — rather than failing the build. -/
theorem c4_failed_term_skips_all_custom_vars
    (s : PyStr) (e : EvalErr) (herr : buildCustomVars s = .error e) :
    build_context (some s) = baseContext := by
  unfold build_context
  by_cases h : s = []
  · simp [h]
  · simp [h, herr]

/-- Witness for C4: the second term's expression `@` fails both attempts,
so the successfully resolved first term `A=meter**2` is dropped too. -/
theorem c4_witness :
    build_context (some ("A=meter**2,b=@").toList) = baseContext :=
  c4_failed_term_skips_all_custom_vars _ .syntaxErr (by decide)

/-- C1: for an equation splitting into exactly two sides that both evaluate
against the symbol table to unit-tagged quantities, the reported consistency
is equivalent to equality of the two physical dimensions — magnitudes and
unit scales (meter versus kilometer) play no role. -/
theorem c1_consistent_iff_same_dimension
    (equation : PyStr) (ctx : Ctx) (verbose : Bool) (l r : PyStr) (ql qr : Quantity)
    (hsplit : pySplit '=' equation = [l, r])
    (hl : evalStr (dlookup ctx) (strip l) = .ok (.qty ql))
    (hr : evalStr (dlookup ctx) (strip r) = .ok (.qty qr)) :
    (check_equation_sanity equation ctx verbose).consistent = true ↔
      dimOfUnits ql.units = dimOfUnits qr.units := by
  unfold check_equation_sanity innerCheck
  rw [hsplit]
  simp only [hl, hr, asQty]
  by_cases h : dimOfUnits ql.units = dimOfUnits qr.units <;>
    cases verbose <;>
      simp [Quantity.check, h]

/-- Witness for C1: `d = v * t` over the catalog — dimension length on both
sides, the right one via meter/second times second. -/
theorem c1_witness :
    (check_equation_sanity ("d = v * t").toList baseContext false).consistent = true :=
  (c1_consistent_iff_same_dimension _ baseContext false
      ("d ").toList (" v * t").toList ⟨⟨1, 1⟩, uOf .meter⟩
      ⟨⟨1, 1⟩, umul (uOf .meter) (umul (uinv (uOf .second)) (uOf .second))⟩
      (by decide) (by decide) (by decide)).mpr (by decide)

/-- C10: an equation with exactly one `=` in which a side evaluates to a
bare number rather than a unit-tagged quantity (the left side, or the right
side after the left produced a quantity) yields the generic error result —
`consistent = false`, both unit fields `none`, an error message — rather
than a dimensionless-quantity comparison.  (Both sides evaluate first; the
`.units` attribute access is what fails, after both evaluations, so the
right-side hypothesis is needed even when the left side is the number.) -/
theorem c10_bare_number_is_error
    (equation : PyStr) (ctx : Ctx) (verbose : Bool) (l r : PyStr) (lv rv : Value)
    (hsplit : pySplit '=' equation = [l, r])
    (hl : evalStr (dlookup ctx) (strip l) = .ok lv)
    (hr : evalStr (dlookup ctx) (strip r) = .ok rv)
    (hnum : (∃ q, lv = .num q) ∨ ((∃ ql, lv = .qty ql) ∧ ∃ q, rv = .num q)) :
    check_equation_sanity equation ctx verbose =
      { equation := equation, consistent := false, lhs_units := none,
        rhs_units := none, message := errHead ++ renderErr .attrErr,
        verbose := none } := by
  unfold check_equation_sanity innerCheck
  rw [hsplit]
  rcases hnum with ⟨q, hq⟩ | ⟨⟨ql, hql⟩, ⟨q, hq⟩⟩
  · subst hq
    simp [hl, hr, asQty, errResult]
  · subst hql; subst hq
    simp [hl, hr, asQty, errResult]

/-- Witness for C10 at the concrete equation `2 = 2`. -/
theorem c10_witness :
    check_equation_sanity ("2 = 2").toList baseContext false =
      { equation := ("2 = 2").toList, consistent := false, lhs_units := none,
        rhs_units := none, message := errHead ++ renderErr .attrErr,
        verbose := none } :=
  c10_bare_number_is_error _ baseContext false ("2 ").toList (" 2").toList
    (.num ⟨2, 1⟩) (.num ⟨2, 1⟩) (by decide) (by decide) (by decide)
    (.inl ⟨⟨2, 1⟩, rfl⟩)

/-- C3, counterexample: on `F = m * a` over the catalog the result is
consistent, the two canonical unit strings differ (`newton` versus
`kilogram * meter / second ** 2`), and yet the message asserts the single
common unit string `newton` for both sides — so the claim that the message
asserts a common unit string only when the two canonical strings are
literally equal fails on the code. -/
theorem c3_counterexample :
    (check_equation_sanity ("F = m * a").toList baseContext false).consistent = true ∧
    (check_equation_sanity ("F = m * a").toList baseContext false).lhs_units =
      some ("newton").toList ∧
    (check_equation_sanity ("F = m * a").toList baseContext false).rhs_units =
      some ("kilogram * meter / second ** 2").toList ∧
    (check_equation_sanity ("F = m * a").toList baseContext false).lhs_units ≠
      (check_equation_sanity ("F = m * a").toList baseContext false).rhs_units ∧
    (check_equation_sanity ("F = m * a").toList baseContext false).message =
      successHead ++ ("newton").toList ++ ("].").toList := by
  refine ⟨by decide, by decide, by decide, by decide, by decide⟩

/-- C3, amended: on a consistent result each side's own canonical unit
string is reported in `lhs_units`/`rhs_units`, and the success message
always asserts "both sides are [X]" with X the LHS's canonical unit string,
also when the right side's canonical string differs. -/
theorem c3_amended_message_uses_lhs_units
    (equation : PyStr) (ctx : Ctx) (verbose : Bool) (l r : PyStr) (ql qr : Quantity)
    (hsplit : pySplit '=' equation = [l, r])
    (hl : evalStr (dlookup ctx) (strip l) = .ok (.qty ql))
    (hr : evalStr (dlookup ctx) (strip r) = .ok (.qty qr))
    (hdim : dimOfUnits ql.units = dimOfUnits qr.units) :
    (check_equation_sanity equation ctx verbose).lhs_units =
      some (unitsStr ql.units) ∧
    (check_equation_sanity equation ctx verbose).rhs_units =
      some (unitsStr qr.units) ∧
    (check_equation_sanity equation ctx verbose).message =
      successHead ++ unitsStr ql.units ++ ("].").toList := by
  unfold check_equation_sanity innerCheck
  rw [hsplit]
  cases verbose <;>
    simp [hl, hr, asQty, Quantity.check, hdim, successMsg]

/-- Witness for the amended C3 at `F = m * a`: the message quotes the LHS
string `newton` although the RHS string differs. -/
theorem c3_amended_witness :
    (check_equation_sanity ("F = m * a").toList baseContext false).message =
      successHead ++ unitsStr (uOf .newton) ++ ("].").toList :=
  (c3_amended_message_uses_lhs_units _ baseContext false
      ("F ").toList (" m * a").toList ⟨⟨1, 1⟩, uOf .newton⟩
      ⟨⟨1, 1⟩, umul (uOf .kilogram) (umul (uOf .meter) (uinv (upow (uOf .second) 2)))⟩
      (by decide) (by decide) (by decide) (by decide)).2.2

/-- C5: the resolution of a custom-variable expression is the fixed
two-step trial of `build_context`: when the expression parses as a pure
unit specifier it is bound as a quantity with magnitude 1 carrying those
units (the fallback is not consulted); only when that attempt fails is the
expression evaluated as a full arithmetic expression in the fallback
namespace (which exposes the `Q_` constructor and the registry object,
neither of which is an arithmetic value). -/
theorem c5_two_step_resolution (unit_expr : PyStr) :
    (∀ u, evalPureUnit unit_expr = .ok u →
      resolveCustomExpr unit_expr = .ok (.qty ⟨⟨1, 1⟩, u⟩)) ∧
    (∀ e, evalPureUnit unit_expr = .error e →
      resolveCustomExpr unit_expr = evalStr emptyLook unit_expr) := by
  constructor
  · intro u hu
    unfold resolveCustomExpr
    rw [hu]
  · intro e he
    unfold resolveCustomExpr
    rw [he]

/-- Witness for C5: `meter**2` resolves as a pure unit with magnitude 1;
`2+3` fails the pure-unit attempt (a scaling factor) and falls back to
full evaluation. -/
theorem c5_witness :
    resolveCustomExpr ("meter**2").toList =
      .ok (.qty ⟨⟨1, 1⟩, upow (uOf .meter) 2⟩) ∧
    resolveCustomExpr ("2+3").toList = evalStr emptyLook ("2+3").toList :=
  ⟨(c5_two_step_resolution _).1 _ (by decide),
   (c5_two_step_resolution _).2 .scaleErr (by decide)⟩

/-! ### String lemmas: `strip`, `splitFirst` and `pySplit` -/

theorem lstrip_length_le (l : PyStr) : (lstrip l).length ≤ l.length := by
  induction l with
  | nil => simp [lstrip]
  | cons c r ih =>
    by_cases h : pyWS c = true
    · simp only [lstrip, h, if_true, List.length_cons]
      omega
    · simp [lstrip, h]

theorem lstrip_idem (l : PyStr) : lstrip (lstrip l) = lstrip l := by
  induction l with
  | nil => rfl
  | cons c r ih =>
    by_cases h : pyWS c = true
    · simp [lstrip, h, ih]
    · simp [lstrip, h]

theorem rstrip_idem (l : PyStr) : rstrip (rstrip l) = rstrip l := by
  induction l with
  | nil => rfl
  | cons c r ih =>
    by_cases h : rstrip r = []
    · by_cases hc : pyWS c = true
      · simp [rstrip, h, hc]
      · simp [rstrip, h, hc]
    · simp [rstrip, h, ih]

theorem rstrip_nil_lstrip (l : PyStr) (h : rstrip l = []) : lstrip l = [] := by
  induction l with
  | nil => rfl
  | cons c r ih =>
    by_cases hc : pyWS c = true ∧ rstrip r = []
    · simp [lstrip, hc.1, ih hc.2]
    · simp [rstrip, hc] at h

theorem strip_rstrip (B : PyStr) : strip (rstrip B) = strip B := by
  induction B with
  | nil => rfl
  | cons c r ih =>
    by_cases hc : pyWS c = true
    · by_cases h : rstrip r = []
      · have h2 : lstrip r = [] := rstrip_nil_lstrip r h
        simp [strip, rstrip, lstrip, hc, h, h2]
      · simp only [strip, rstrip, lstrip, hc, h, and_false, if_false, if_true,
          true_and] at ih ⊢
        exact ih
    · by_cases h : rstrip r = []
      · simp [strip, rstrip, lstrip, hc, h, rstrip_idem]
      · simp [strip, rstrip, lstrip, hc, h, rstrip_idem]

theorem strip_lstrip (A : PyStr) : strip (lstrip A) = strip A := by
  unfold strip
  rw [lstrip_idem]

theorem strip_idem (l : PyStr) : strip (strip l) = strip l := by
  have h : strip (rstrip (lstrip l)) = strip (lstrip l) := strip_rstrip (lstrip l)
  calc strip (strip l) = strip (rstrip (lstrip l)) := rfl
    _ = strip (lstrip l) := h
    _ = strip l := strip_lstrip l

theorem rstrip_append (l1 : PyStr) (c : Char) (l2 : PyStr) (hc : pyWS c = false) :
    rstrip (l1 ++ c :: l2) = l1 ++ c :: rstrip l2 := by
  induction l1 with
  | nil => simp [rstrip, hc]
  | cons d r ih =>
    have hne : rstrip (r ++ c :: l2) ≠ [] := by
      rw [ih]; simp
    simp [rstrip, ih, hne]

theorem lstrip_append (A : PyStr) (c : Char) (B : PyStr) (hc : pyWS c = false) :
    lstrip (A ++ c :: B) = lstrip A ++ c :: B := by
  induction A with
  | nil => simp [lstrip, hc]
  | cons d r ih =>
    by_cases h : pyWS d = true <;> simp [lstrip, h, ih]

theorem splitFirst_append (sep : Char) (A B : PyStr) (h : sep ∉ A) :
    splitFirst sep (A ++ sep :: B) = (A, B) := by
  induction A with
  | nil => simp [splitFirst]
  | cons d r ih =>
    have hd : ¬(d = sep) := fun he => h (by simp [he])
    have h2 : sep ∉ r := fun hm => h (List.mem_cons_of_mem _ hm)
    simp [splitFirst, hd, ih h2]

theorem mem_lstrip {x : Char} (l : PyStr) (h : x ∈ lstrip l) : x ∈ l := by
  induction l with
  | nil => simp [lstrip] at h
  | cons c r ih =>
    by_cases hc : pyWS c = true
    · simp only [lstrip, hc, if_true] at h
      exact List.mem_cons_of_mem _ (ih h)
    · simpa [lstrip, hc] using h

theorem mem_rstrip {x : Char} (l : PyStr) (h : x ∈ rstrip l) : x ∈ l := by
  induction l with
  | nil => simp [rstrip] at h
  | cons c r ih =>
    by_cases hc : pyWS c = true ∧ rstrip r = []
    · simp [rstrip, hc] at h
    · simp only [rstrip, hc, if_false] at h
      rcases List.mem_cons.mp h with h | h
      · simp [h]
      · exact List.mem_cons_of_mem _ (ih h)

theorem mem_strip {x : Char} (l : PyStr) (h : x ∈ strip l) : x ∈ l :=
  mem_lstrip l (mem_rstrip (lstrip l) h)

theorem splitFirst_fst_no_sep (sep : Char) (l : PyStr) : sep ∉ (splitFirst sep l).1 := by
  induction l with
  | nil => simp [splitFirst]
  | cons c r ih =>
    by_cases hc : c = sep
    · simp [splitFirst, hc]
    · simp only [splitFirst, hc, if_false]
      intro hm
      rcases List.mem_cons.mp hm with h | h
      · exact hc h.symm
      · exact ih h

theorem mem_splitFirst_fst {x : Char} (sep : Char) (l : PyStr)
    (h : x ∈ (splitFirst sep l).1) : x ∈ l := by
  induction l with
  | nil => simp [splitFirst] at h
  | cons c r ih =>
    by_cases hc : c = sep
    · simp [splitFirst, hc] at h
    · simp only [splitFirst, hc, if_false] at h
      rcases List.mem_cons.mp h with h | h
      · simp [h]
      · exact List.mem_cons_of_mem _ (ih h)

theorem mem_splitFirst_snd {x : Char} (sep : Char) (l : PyStr)
    (h : x ∈ (splitFirst sep l).2) : x ∈ l := by
  induction l with
  | nil => simp [splitFirst] at h
  | cons c r ih =>
    by_cases hc : c = sep
    · simp only [splitFirst, hc, if_true] at h
      exact List.mem_cons_of_mem _ h
    · simp only [splitFirst, hc, if_false] at h
      exact List.mem_cons_of_mem _ (ih h)

theorem pySplit_ne_nil (sep : Char) (s : PyStr) : pySplit sep s ≠ [] := by
  cases s with
  | nil => simp [pySplit]
  | cons c r =>
    simp only [pySplit]
    cases h : pySplit sep r with
    | nil => simp
    | cons t ts => by_cases hc : c = sep <;> simp [hc]

theorem mem_pySplit {t : PyStr} (sep : Char) (s : PyStr) (h : t ∈ pySplit sep s) :
    sep ∉ t := by
  induction s generalizing t with
  | nil =>
    simp [pySplit] at h
    simp [h]
  | cons c r ih =>
    simp only [pySplit] at h
    cases hp : pySplit sep r with
    | nil => exact absurd hp (pySplit_ne_nil sep r)
    | cons t0 ts =>
      rw [hp] at h
      by_cases hc : c = sep
      · simp only [hc, if_true] at h
        rcases List.mem_cons.mp h with h | h
        · simp [h]
        · exact ih (hp ▸ h)
      · simp only [hc, if_false] at h
        rcases List.mem_cons.mp h with h | h
        · subst h
          intro hm
          rcases List.mem_cons.mp hm with hm | hm
          · exact hc hm.symm
          · exact ih (hp ▸ List.mem_cons_self t0 ts) hm
        · exact ih (hp ▸ List.mem_cons_of_mem t0 h)

theorem pySplit_append (sep : Char) (t z : PyStr) (h : sep ∉ t) :
    pySplit sep (t ++ sep :: z) = t :: pySplit sep z := by
  induction t with
  | nil =>
    simp only [List.nil_append, pySplit]
    cases hp : pySplit sep z with
    | nil => exact absurd hp (pySplit_ne_nil sep z)
    | cons t0 ts => simp
  | cons d r ih =>
    have hd : ¬(d = sep) := fun he => h (by simp [he])
    have h2 : sep ∉ r := fun hm => h (List.mem_cons_of_mem _ hm)
    simp only [List.cons_append, pySplit, List.append_eq]
    rw [ih h2]
    simp [hd]

theorem pySplit_no_sep (sep : Char) (t : PyStr) (h : sep ∉ t) :
    pySplit sep t = [t] := by
  induction t with
  | nil => rfl
  | cons d r ih =>
    have hd : ¬(d = sep) := fun he => h (by simp [he])
    have h2 : sep ∉ r := fun hm => h (List.mem_cons_of_mem _ hm)
    simp [pySplit, ih h2, hd]

/-- Splitting the stripped term `A ++ '=' :: B` (with the `=` shown the
first one) at its first `=` yields the left-stripped name part and the
right-stripped expression part. -/
theorem splitFirst_strip_eq (A B : PyStr) (h : ('=') ∉ A) :
    splitFirst '=' (strip (A ++ '=' :: B)) = (lstrip A, rstrip B) := by
  have hws : pyWS '=' = false := by decide
  have h1 : lstrip (A ++ '=' :: B) = lstrip A ++ '=' :: B := lstrip_append A '=' B hws
  have h2 : rstrip (lstrip A ++ '=' :: B) = lstrip A ++ '=' :: rstrip B :=
    rstrip_append _ '=' _ hws
  have h3 : ('=') ∉ lstrip A := fun hm => h (mem_lstrip A hm)
  calc splitFirst '=' (strip (A ++ '=' :: B))
      = splitFirst '=' (lstrip A ++ '=' :: rstrip B) := by rw [strip, h1, h2]
    _ = (lstrip A, rstrip B) := splitFirst_append '=' _ _ h3

/-! ### Dictionary lemmas -/

/-- The keys of an association-list dict, in insertion order. -/
def keysOf {α : Type} (d : List (PyStr × α)) : List PyStr := d.map Prod.fst

theorem dlookup_dinsert_self {α : Type} (d : List (PyStr × α)) (k : PyStr) (v : α) :
    dlookup (dinsert d k v) k = some v := by
  induction d with
  | nil => simp [dinsert, dlookup]
  | cons kv rest ih =>
    by_cases h : kv.1 = k <;> simp [dinsert, dlookup, h, ih]

theorem dlookup_dinsert_ne {α : Type} (d : List (PyStr × α)) (k : PyStr) (v : α)
    (n : PyStr) (h : n ≠ k) : dlookup (dinsert d k v) n = dlookup d n := by
  have hkn : ¬(k = n) := fun he => h he.symm
  induction d with
  | nil => simp [dinsert, dlookup, hkn]
  | cons kv rest ih =>
    by_cases hk : kv.1 = k
    · simp [dinsert, dlookup, hk, hkn]
    · simp [dinsert, dlookup, hk, ih]

theorem mem_dinsert {α : Type} (d : List (PyStr × α)) (k : PyStr) (v : α)
    (kv : PyStr × α) (h : kv ∈ dinsert d k v) : kv ∈ d ∨ kv = (k, v) := by
  induction d with
  | nil => simp [dinsert] at h; simp [h]
  | cons kv0 rest ih =>
    by_cases hk : kv0.1 = k
    · simp only [dinsert, hk, if_true] at h
      rcases List.mem_cons.mp h with h | h
      · right; exact h
      · left; exact List.mem_cons_of_mem _ h
    · simp only [dinsert, hk, if_false] at h
      rcases List.mem_cons.mp h with h | h
      · left; simp [h]
      · rcases ih h with h | h
        · left; exact List.mem_cons_of_mem _ h
        · right; exact h

theorem mem_keys_dinsert {α : Type} (d : List (PyStr × α)) (k : PyStr) (v : α)
    (n : PyStr) (h : n ∈ keysOf (dinsert d k v)) : n ∈ keysOf d ∨ n = k := by
  rcases List.mem_map.mp h with ⟨kv, hkv, he⟩
  rcases mem_dinsert d k v kv hkv with h2 | h2
  · left
    rw [← he]
    exact List.mem_map_of_mem Prod.fst h2
  · right
    rw [← he, h2]

theorem nodup_dinsert {α : Type} (d : List (PyStr × α)) (k : PyStr) (v : α)
    (h : (keysOf d).Nodup) : (keysOf (dinsert d k v)).Nodup := by
  induction d with
  | nil => simp [dinsert, keysOf]
  | cons kv rest ih =>
    rw [keysOf, List.map_cons, List.nodup_cons] at h
    by_cases hk : kv.1 = k
    · simp only [dinsert, hk, if_true]
      rw [keysOf, List.map_cons, List.nodup_cons]
      refine ⟨?_, h.2⟩
      rw [← hk]
      exact h.1
    · simp only [dinsert, hk, if_false]
      rw [keysOf, List.map_cons, List.nodup_cons]
      refine ⟨fun hm => ?_, ih h.2⟩
      rcases mem_keys_dinsert rest k v kv.1 hm with h2 | h2
      · exact h.1 h2
      · exact hk h2

theorem dinsert_not_mem {α : Type} (d : List (PyStr × α)) (k : PyStr) (v : α)
    (h : k ∉ keysOf d) : dinsert d k v = d ++ [(k, v)] := by
  induction d with
  | nil => rfl
  | cons kv rest ih =>
    have hk : ¬(kv.1 = k) := fun he => h (by rw [← he]; exact List.mem_cons_self _ _)
    have h2 : k ∉ keysOf rest := fun hm => h (List.mem_cons_of_mem _ hm)
    simp [dinsert, hk, ih h2]

theorem dinsert_ne_nil {α : Type} (d : List (PyStr × α)) (k : PyStr) (v : α) :
    dinsert d k v ≠ [] := by
  cases d with
  | nil => simp [dinsert]
  | cons kv rest => by_cases h : kv.1 = k <;> simp [dinsert, h]

theorem dlookup_dictUpdate_not_mem {α : Type} (base d2 : List (PyStr × α))
    (n : PyStr) (h : n ∉ keysOf d2) :
    dlookup (dictUpdate base d2) n = dlookup base n := by
  induction d2 generalizing base with
  | nil => rfl
  | cons kv rest ih =>
    have h1 : n ∉ keysOf rest := fun hm => h (List.mem_cons_of_mem _ hm)
    have h2 : n ≠ kv.1 := fun he => h (by rw [he]; exact List.mem_cons_self _ _)
    calc dlookup (dictUpdate base (kv :: rest)) n
        = dlookup (dictUpdate (dinsert base kv.1 kv.2) rest) n := rfl
      _ = dlookup (dinsert base kv.1 kv.2) n := ih _ h1
      _ = dlookup base n := dlookup_dinsert_ne _ _ _ _ h2

theorem dlookup_dictUpdate {α : Type} (base d : List (PyStr × α)) (n : PyStr) (v : α)
    (hnd : (keysOf d).Nodup) (h : dlookup d n = some v) :
    dlookup (dictUpdate base d) n = some v := by
  induction d generalizing base with
  | nil => simp [dlookup] at h
  | cons kv rest ih =>
    rw [keysOf, List.map_cons, List.nodup_cons] at hnd
    by_cases he : kv.1 = n
    · have hv : kv.2 = v := by
        rw [dlookup, if_pos he] at h
        exact Option.some.inj h
      have hk : kv.1 ∉ keysOf rest := hnd.1
      calc dlookup (dictUpdate base (kv :: rest)) n
          = dlookup (dictUpdate (dinsert base kv.1 kv.2) rest) n := rfl
        _ = dlookup (dinsert base kv.1 kv.2) n :=
            dlookup_dictUpdate_not_mem _ _ _ (he ▸ hk)
        _ = some v := by rw [← he, dlookup_dinsert_self, hv]
    · have h2 : dlookup rest n = some v := by
        rw [dlookup, if_neg he] at h
        exact h
      exact ih (dinsert base kv.1 kv.2) hnd.2 h2

/-! ### Lemmas about the custom-variable loops -/

theorem goTerms_term_step (A B : PyStr) (ts : List PyStr) (d : Ctx)
    (h : ('=') ∉ A) :
    goTerms ((A ++ '=' :: B) :: ts) d =
      match resolveCustomExpr (strip B) with
      | .ok v => goTerms ts (dinsert d (strip A) v)
      | .error e => .error e := by
  have hm : ('=') ∈ A ++ '=' :: B := List.mem_append_right _ (List.mem_cons_self _ _)
  rw [goTerms, if_pos hm, splitFirst_strip_eq A B h]
  dsimp only
  rw [strip_lstrip, strip_rstrip]

theorem goTerms_skip (pre post : List PyStr) (t : PyStr) (d : Ctx)
    (h : ('=') ∉ t) :
    goTerms (pre ++ t :: post) d = goTerms (pre ++ post) d := by
  induction pre generalizing d with
  | nil => simp [goTerms, h]
  | cons p ps ih =>
    simp only [List.cons_append, goTerms]
    by_cases hp : ('=') ∈ p
    · rw [if_pos hp, if_pos hp]
      cases resolveCustomExpr (strip (splitFirst '=' (strip p)).2) with
      | ok v => exact ih _
      | error e => rfl
    · rw [if_neg hp, if_neg hp]
      exact ih _

theorem goTerms_nodup (ts : List PyStr) (d d2 : Ctx) (hnd : (keysOf d).Nodup)
    (h : goTerms ts d = .ok d2) : (keysOf d2).Nodup := by
  induction ts generalizing d with
  | nil =>
    rw [goTerms] at h
    cases h
    exact hnd
  | cons t rest ih =>
    rw [goTerms] at h
    by_cases ht : ('=') ∈ t
    · rw [if_pos ht] at h
      dsimp only at h
      cases hr : resolveCustomExpr (strip (splitFirst '=' (strip t)).2) with
      | ok v =>
        rw [hr] at h
        exact ih _ (nodup_dinsert _ _ _ hnd) h
      | error e =>
        rw [hr] at h
        cases h
    · rw [if_neg ht] at h
      exact ih _ hnd h

theorem goNames_term_step (A B : PyStr) (ts : List PyStr)
    (d : List (PyStr × PyStr)) (h : ('=') ∉ A) :
    goNames ((A ++ '=' :: B) :: ts) d = goNames ts (dinsert d (strip A) (strip B)) := by
  have hm : ('=') ∈ A ++ '=' :: B := List.mem_append_right _ (List.mem_cons_self _ _)
  rw [goNames, if_pos hm, splitFirst_strip_eq A B h]
  dsimp only
  rw [strip_lstrip, strip_rstrip]

theorem goNames_nodup (ts : List PyStr) (d : List (PyStr × PyStr))
    (hnd : (keysOf d).Nodup) : (keysOf (goNames ts d)).Nodup := by
  induction ts generalizing d with
  | nil => exact hnd
  | cons t rest ih =>
    rw [goNames]
    by_cases ht : ('=') ∈ t
    · rw [if_pos ht]
      exact ih _ (nodup_dinsert _ _ _ hnd)
    · rw [if_neg ht]
      exact ih _ hnd

/-- C6: `build_context` splits the specification on `,` into terms (first
conjunct, the definitional content of `buildCustomVars`); a term containing
no `=` is silently skipped without affecting the rest of the build (second
conjunct); and a term whose first `=` splits it as `A ++ '=' :: B` binds the
whitespace-trimmed name `strip A` to the resolution of the
whitespace-trimmed expression `strip B` (third conjunct). -/
theorem c6_term_splitting :
    (∀ s, buildCustomVars s = goTerms (pySplit ',' s) []) ∧
    (∀ pre post t d, ('=') ∉ t →
       goTerms (pre ++ t :: post) d = goTerms (pre ++ post) d) ∧
    (∀ A B ts d, ('=') ∉ A →
       goTerms ((A ++ '=' :: B) :: ts) d =
         match resolveCustomExpr (strip B) with
         | .ok v => goTerms ts (dinsert d (strip A) v)
         | .error e => .error e) :=
  ⟨fun _ => rfl, goTerms_skip, goTerms_term_step⟩

/-- Witness for C6 at concrete terms: the `=`-free term `novar` is skipped,
and the term `" g = meter "` binds name `g` to the resolution of `meter`. -/
theorem c6_witness :
    goTerms ([("novar").toList, ("A=meter").toList]) [] =
      goTerms [("A=meter").toList] [] ∧
    goTerms [(" g = meter ").toList] [] =
      match resolveCustomExpr (strip (" meter ").toList) with
      | .ok v => goTerms [] (dinsert [] (strip (" g ").toList) v)
      | .error e => .error e :=
  ⟨c6_term_splitting.2.1 [] [("A=meter").toList] ("novar").toList [] (by decide),
   c6_term_splitting.2.2 (" g ").toList (" meter ").toList [] [] (by decide)⟩

/-- C7: a successfully resolved custom variable overrides the catalog — the
symbol table built by `build_context` resolves every name bound by the
custom-variable dict to its custom value (first conjunct); and among
bindings of the same name, the later insertion wins (second conjunct). -/
theorem c7_custom_overrides_catalog :
    (∀ s d n v, buildCustomVars s = .ok d → s ≠ [] → dlookup d n = some v →
       dlookup (build_context (some s)) n = some v) ∧
    (∀ (d : Ctx) (n : PyStr) (v1 v2 : Value) (w : PyStr),
       dlookup (dinsert (dinsert d n v1) n v2) w = dlookup (dinsert d n v2) w) := by
  constructor
  · intro s d n v hb hs hl
    have hnd : (keysOf d).Nodup := goTerms_nodup _ [] d (by simp [keysOf]) hb
    rw [build_context, if_neg hs, hb]
    exact dlookup_dictUpdate baseContext d n v hnd hl
  · intro d n v1 v2 w
    by_cases h : w = n
    · subst h
      rw [dlookup_dinsert_self, dlookup_dinsert_self]
    · rw [dlookup_dinsert_ne _ _ _ _ h, dlookup_dinsert_ne _ _ _ _ h,
        dlookup_dinsert_ne _ _ _ _ h]

/-- Witness for C7: the custom variable `t=kilometer` overrides the
catalog's `t` (a second), and re-inserting the same name keeps the later
value. -/
theorem c7_witness :
    dlookup (build_context (some ("t=kilometer").toList)) ("t").toList =
      some (.qty ⟨⟨1, 1⟩, uOf .kilometer⟩) ∧
    dlookup (dinsert (dinsert ([] : Ctx) ("t").toList (.qty ⟨⟨1, 1⟩, uOf .meter⟩))
        ("t").toList (.qty ⟨⟨1, 1⟩, uOf .kilometer⟩)) ("t").toList =
      dlookup (dinsert ([] : Ctx) ("t").toList (.qty ⟨⟨1, 1⟩, uOf .kilometer⟩))
        ("t").toList :=
  ⟨c7_custom_overrides_catalog.1 _
      [(("t").toList, .qty ⟨⟨1, 1⟩, uOf .kilometer⟩)] _ _
      (by decide) (by decide) (by decide),
   c7_custom_overrides_catalog.2 [] ("t").toList _ _ _⟩

/-! ### Round trip of the configuration string proposed by
`add_custom_variable` -/

/-- Well-formedness of a parsed binding: both parts are trimmed, the name
contains no `=` and neither part contains a `,` — every binding produced by
the parsing loop satisfies this, and it is what makes the rejoined string
re-parse to the same dict. -/
def EntryWF (kv : PyStr × PyStr) : Prop :=
  strip kv.1 = kv.1 ∧ strip kv.2 = kv.2 ∧ ('=') ∉ kv.1 ∧ (',') ∉ kv.1 ∧
    (',') ∉ kv.2

theorem goNames_wf (ts : List PyStr) (d : List (PyStr × PyStr))
    (hts : ∀ t ∈ ts, (',') ∉ t) (hd : ∀ kv ∈ d, EntryWF kv) :
    ∀ kv ∈ goNames ts d, EntryWF kv := by
  induction ts generalizing d with
  | nil => exact hd
  | cons t rest ih =>
    rw [goNames]
    have htr : ∀ u ∈ rest, (',') ∉ u := fun u hu => hts u (List.mem_cons_of_mem _ hu)
    by_cases ht : ('=') ∈ t
    · rw [if_pos ht]
      dsimp only
      apply ih _ htr
      intro kv hkv
      rcases mem_dinsert _ _ _ _ hkv with h | h
      · exact hd kv h
      · subst h
        have htc : (',') ∉ t := hts t (List.mem_cons_self _ _)
        refine ⟨strip_idem _, strip_idem _, ?_, ?_, ?_⟩
        · intro hm
          exact splitFirst_fst_no_sep '=' (strip t) (mem_strip _ hm)
        · intro hm
          exact htc (mem_strip _ (mem_splitFirst_fst '=' _ (mem_strip _ hm)))
        · intro hm
          exact htc (mem_strip _ (mem_splitFirst_snd '=' _ (mem_strip _ hm)))
    · rw [if_neg ht]
      exact ih _ htr hd

theorem parseCurrentVars_wf (cfg : Option PyStr) :
    ∀ kv ∈ parseCurrentVars cfg, EntryWF kv := by
  cases cfg with
  | none => intro kv hkv; simp [parseCurrentVars] at hkv
  | some s =>
    by_cases hs : s = []
    · intro kv hkv
      simp [parseCurrentVars, hs] at hkv
    · rw [parseCurrentVars, if_neg hs]
      exact goNames_wf _ [] (fun t ht => mem_pySplit ',' s ht) (by intro kv h; cases h)

theorem parseCurrentVars_nodup (cfg : Option PyStr) :
    (keysOf (parseCurrentVars cfg)).Nodup := by
  cases cfg with
  | none => simp [parseCurrentVars, keysOf]
  | some s =>
    by_cases hs : s = []
    · simp [parseCurrentVars, hs, keysOf]
    · rw [parseCurrentVars, if_neg hs]
      exact goNames_nodup _ [] (by simp [keysOf])

theorem joinCommaTerms_map_ne_nil (m : List (PyStr × PyStr)) (h : m ≠ []) :
    joinCommaTerms (m.map fun kv => kv.1 ++ '=' :: kv.2) ≠ [] := by
  cases m with
  | nil => exact absurd rfl h
  | cons kv rest =>
    cases rest with
    | nil => simp [joinCommaTerms]
    | cons kv2 r2 => simp [joinCommaTerms]

/-- Re-parsing the `name=expr` rejoin of a well-formed dict with unique
keys, starting from accumulator `d` whose keys are disjoint from it, appends
the dict to the accumulator. -/
theorem goNames_join (m : List (PyStr × PyStr)) (d : List (PyStr × PyStr))
    (hwf : ∀ kv ∈ m, EntryWF kv)
    (hnd : (keysOf d ++ keysOf m).Nodup) :
    goNames (pySplit ',' (joinCommaTerms (m.map fun kv => kv.1 ++ '=' :: kv.2))) d
      = d ++ m := by
  induction m generalizing d with
  | nil =>
    simp only [List.map_nil, joinCommaTerms, pySplit, goNames]
    have : ('=') ∈ ([] : PyStr) → False := by simp
    simp [goNames]
  | cons kv rest ih =>
    have hkv := hwf kv (List.mem_cons_self _ _)
    have hterm : (',') ∉ kv.1 ++ '=' :: kv.2 := by
      intro hm
      rcases List.mem_append.mp hm with h | h
      · exact hkv.2.2.2.1 h
      · rcases List.mem_cons.mp h with h | h
        · exact absurd h (by decide)
        · exact hkv.2.2.2.2 h
    have hknotd : kv.1 ∉ keysOf d := by
      intro hm
      have hdisj := (List.nodup_append.mp hnd).2.2
      exact hdisj hm (by rw [keysOf, List.map_cons]; exact List.mem_cons_self _ _)
    have hstep : ∀ ts, goNames ((kv.1 ++ '=' :: kv.2) :: ts) d
        = goNames ts (d ++ [kv]) := by
      intro ts
      rw [goNames_term_step _ _ _ _ hkv.2.2.1, hkv.1, hkv.2.1,
        dinsert_not_mem _ _ _ hknotd]
    cases rest with
    | nil =>
      rw [List.map_cons, List.map_nil, joinCommaTerms,
        pySplit_no_sep ',' _ hterm, hstep, goNames]
    | cons kv2 r2 =>
      have hjoin : joinCommaTerms ((kv :: kv2 :: r2).map fun x => x.1 ++ '=' :: x.2)
          = (kv.1 ++ '=' :: kv.2) ++ ',' ::
              joinCommaTerms ((kv2 :: r2).map fun x => x.1 ++ '=' :: x.2) := by
        simp [joinCommaTerms]
      rw [hjoin, pySplit_append ',' _ _ hterm, hstep]
      have hnd2 : (keysOf (d ++ [kv]) ++ keysOf (kv2 :: r2)).Nodup := by
        have : keysOf (d ++ [kv]) ++ keysOf (kv2 :: r2)
            = keysOf d ++ keysOf (kv :: kv2 :: r2) := by
          simp [keysOf]
        rw [this]
        exact hnd
      have := ih (d ++ [kv]) (fun x hx => hwf x (List.mem_cons_of_mem _ hx)) hnd2
      rw [this, List.append_assoc]
      rfl

/-- C8: `add_custom_variable` only computes and returns a proposed
configuration string (the embedding is a pure function of the session
configuration — there is no stored state to mutate, and the session's own
string is untouched); re-parsing the proposed string binds the new name to
the new expression and leaves every other existing binding unchanged —
merge by name, the new binding winning.  The hypotheses say the new pair is
itself well-formed: both parts trimmed and free of the separators (`,`
in either, `=` in the name) that the textual round trip reserves. -/
theorem c8_add_custom_variable_merge
    (cfg : Option PyStr) (name unit : PyStr)
    (hn1 : strip name = name) (hn2 : ('=') ∉ name) (hn3 : (',') ∉ name)
    (hu1 : strip unit = unit) (hu2 : (',') ∉ unit) (n : PyStr) :
    dlookup (parseCurrentVars (some (new_custom_vars cfg name unit))) n =
      if n = name then some unit else dlookup (parseCurrentVars cfg) n := by
  have hwf : ∀ kv ∈ dinsert (parseCurrentVars cfg) name unit, EntryWF kv := by
    intro kv hkv
    rcases mem_dinsert _ _ _ _ hkv with h | h
    · exact parseCurrentVars_wf cfg kv h
    · subst h
      exact ⟨hn1, hu1, hn2, hn3, hu2⟩
  have hnd : (keysOf (dinsert (parseCurrentVars cfg) name unit)).Nodup :=
    nodup_dinsert _ _ _ (parseCurrentVars_nodup cfg)
  have hne : new_custom_vars cfg name unit ≠ [] :=
    joinCommaTerms_map_ne_nil _ (dinsert_ne_nil _ _ _)
  have hrt : goNames (pySplit ',' (new_custom_vars cfg name unit)) [] =
      dinsert (parseCurrentVars cfg) name unit := by
    have := goNames_join (dinsert (parseCurrentVars cfg) name unit) [] hwf
      (by simpa [keysOf] using hnd)
    simpa [new_custom_vars] using this
  rw [parseCurrentVars, if_neg hne, hrt]
  by_cases h : n = name
  · subst h
    rw [if_pos rfl, dlookup_dinsert_self]
  · rw [if_neg h, dlookup_dinsert_ne _ _ _ _ h]

/-- Witness for C8: adding `b=kelvin` to the session string `a=meter`
binds `b` and leaves `a` unchanged in the proposed string. -/
theorem c8_witness :
    dlookup (parseCurrentVars
        (some (new_custom_vars (some ("a=meter").toList) ("b").toList
          ("kelvin").toList))) ("b").toList =
      some ("kelvin").toList ∧
    dlookup (parseCurrentVars
        (some (new_custom_vars (some ("a=meter").toList) ("b").toList
          ("kelvin").toList))) ("a").toList =
      dlookup (parseCurrentVars (some ("a=meter").toList)) ("a").toList := by
  have h1 := c8_add_custom_variable_merge (some ("a=meter").toList)
    ("b").toList ("kelvin").toList (by decide) (by decide) (by decide)
    (by decide) (by decide) ("b").toList
  have h2 := c8_add_custom_variable_merge (some ("a=meter").toList)
    ("b").toList ("kelvin").toList (by decide) (by decide) (by decide)
    (by decide) (by decide) ("a").toList
  refine ⟨?_, ?_⟩
  · rw [h1, if_pos rfl]
  · rw [h2, if_neg (by decide)]
